import Mathlib

/-!
Verification development for the sendo-worker analysis/recommendation pipeline.

Shallow embedding of the TypeScript sources:
  * the `recommended_actions` / `analysis_results` relational schema
    (src/unnamed/part_000, src/src/schemas) as Lean structures,
  * the `AnalysisRepository` CRUD operations (saveAnalysis, getAnalysisResult,
    getActionsByAnalysisId, getActionById),
  * the `DecisionProcessor` accept/reject state machine with its detached
    background execution path (src/unnamed/part_018),
  * the `ActionCategorizer`, `DataSelector`, `RecommendationGenerator` fan-out
    components and the `runAnalysis` orchestrator (src/unnamed/part_020).

Modelling conventions: timestamps are `Nat` ticks passed explicitly where the
code calls `new Date()`; JS numbers are `Rat` (for the values stored here,
`parseFloat(x.toString()) = x` holds exactly, so the string indirection through
the `decimal` column is the identity); serialized JSON payloads are `String`;
nullable columns are `Option`; the persistence engine itself is out of scope
per the spec, so the store returns exactly what was written.  Inference calls
and host-environment invocations are oracle parameters (`Except String`-valued
functions), so theorems quantify over every possible external behaviour.
-/

/-- Substring test on character lists: does the first list occur as a prefix
of the second?  Models the prefix step of `String.prototype.includes`. -/
def charsPrefix : List Char → List Char → Bool
  | [], _ => true
  | _ :: _, [] => false
  | a :: as, b :: bs => a == b && charsPrefix as bs

/-- Substring occurrence test on character lists. -/
def charsInfix (pat : List Char) : List Char → Bool
  | [] => pat.isEmpty
  | c :: rest => charsPrefix pat (c :: rest) || charsInfix pat rest

/-- Models the JavaScript `haystack.includes(needle)` substring test, used by
the background-failure error-kind heuristic in `processExecutingActions`. -/
def jsIncludes (haystack needle : String) : Bool :=
  charsInfix needle.toList haystack.toList

/-- Application-level priority, the TS union `'high' | 'medium' | 'low'`. -/
inductive Priority where
  | high
  | medium
  | low
deriving DecidableEq, Repr

/-- PRIORITY_VALUES lookup (src/unnamed/part_000): high=3, medium=2, low=1. -/
def PRIORITY_VALUES : Priority → Int
  | .high => 3
  | .medium => 2
  | .low => 1

/-- PRIORITY_NAMES lookup composed with the `|| 'medium'` fallback used at
every read site (`PRIORITY_NAMES[row.priority] || 'medium'`). -/
def PRIORITY_NAMES : Int → Priority
  | 3 => .high
  | 2 => .medium
  | 1 => .low
  | _ => .medium

/-- Result payload written on completed execution (`result` jsonb column). -/
structure ResultData where
  text : String
  data : Option String
  timestamp : Nat
deriving DecidableEq, Repr

/-- Row of the `recommended_actions` table (src/unnamed/part_000).  `priority`
is the persisted smallint ordinal; `status` and `errorType` are the varchar
columns holding whatever string the code writes. -/
structure Row where
  id : String
  analysisId : String
  actionType : String
  pluginName : String
  priority : Int
  reasoning : String
  confidence : Rat
  triggerMessage : String
  params : Option (List (String × String))
  estimatedImpact : Option String
  status : String
  decidedAt : Option Nat
  executedAt : Option Nat
  result : Option ResultData
  error : Option String
  errorType : Option String
  createdAt : Nat
deriving DecidableEq, Repr

/-- Four-section narrative produced by the insight generator. -/
structure AnalysisSections where
  walletOverview : String
  marketConditions : String
  riskAssessment : String
  opportunities : String
deriving DecidableEq, Repr

/-- Row of the `analysis_results` table. -/
structure AnalysisRow where
  id : String
  agentId : String
  analysis : AnalysisSections
  pluginsUsed : List String
  executionTimeMs : Nat
  createdAt : Nat
deriving DecidableEq, Repr

/-- The relational store: the two persisted tables, rows in insertion order. -/
structure Db where
  analyses : List AnalysisRow
  actions : List Row
deriving DecidableEq, Repr

/-- Application-level `RecommendedAction` (src/src/types/actions.ts).
`confidence` is `Option` because `saveAnalysis` defensively checks
`rec.confidence != null` before persisting. -/
structure RecommendedAction where
  id : String
  analysisId : String
  actionType : String
  pluginName : String
  priority : Priority
  reasoning : String
  confidence : Option Rat
  triggerMessage : String
  params : Option (List (String × String))
  estimatedImpact : Option String
  estimatedGas : Option String
  status : String
  decidedAt : Option Nat
  executedAt : Option Nat
  result : Option ResultData
  error : Option String
  errorType : Option String
  createdAt : Nat
deriving DecidableEq, Repr

/-- Application-level `AnalysisResult` record. -/
structure AnalysisResult where
  id : String
  agentId : String
  timestamp : Nat
  analysis : AnalysisSections
  pluginsUsed : List String
  executionTimeMs : Nat
  createdAt : Nat
deriving DecidableEq, Repr

/-- Row-to-record mapping shared by `getActionsByAnalysisId` and
`getActionById` (both map every column, including `decidedAt` and `result`). -/
def rowToRec (row : Row) : RecommendedAction :=
  { id := row.id
    analysisId := row.analysisId
    actionType := row.actionType
    pluginName := row.pluginName
    priority := PRIORITY_NAMES row.priority
    reasoning := row.reasoning
    confidence := some row.confidence
    triggerMessage := row.triggerMessage
    params := row.params
    estimatedImpact := row.estimatedImpact
    estimatedGas := none
    status := row.status
    decidedAt := row.decidedAt
    executedAt := row.executedAt
    result := row.result
    error := row.error
    errorType := row.errorType
    createdAt := row.createdAt }

/-- Row-to-record mapping used by `getAnalysisResult`
(src/src/templates/selectRelevantActionsPrompt.ts lines 555-571): it maps the
same columns except that it never reads `decidedAt` or `result`. -/
def rowToRecAnalysis (row : Row) : RecommendedAction :=
  { id := row.id
    analysisId := row.analysisId
    actionType := row.actionType
    pluginName := row.pluginName
    priority := PRIORITY_NAMES row.priority
    reasoning := row.reasoning
    confidence := some row.confidence
    triggerMessage := row.triggerMessage
    params := row.params
    estimatedImpact := row.estimatedImpact
    estimatedGas := none
    status := row.status
    decidedAt := none
    executedAt := row.executedAt
    result := none
    error := row.error
    errorType := row.errorType
    createdAt := row.createdAt }

/-- Insert mapping of `saveAnalysis`: an application record becomes a row of
`recommended_actions` attached to `analysisId`.  Only the listed columns are
set; `decidedAt`, `executedAt`, `result`, `error`, `errorType` stay NULL.
The `confidence.getD 0` default is never reached: `saveAnalysis` filters on
`rec.confidence != null` first. -/
def recToRow (analysisId : String) (rec : RecommendedAction) : Row :=
  { id := rec.id
    analysisId := analysisId
    actionType := rec.actionType
    pluginName := rec.pluginName
    priority := PRIORITY_VALUES rec.priority
    reasoning := rec.reasoning
    confidence := rec.confidence.getD 0
    triggerMessage := rec.triggerMessage
    params := rec.params
    estimatedImpact := rec.estimatedImpact
    status := rec.status
    decidedAt := none
    executedAt := none
    result := none
    error := none
    errorType := none
    createdAt := rec.createdAt }

/-- AnalysisRepository.saveAnalysis: inserts the analysis row, then one row per
recommendation that passes the `rec != null && rec.confidence != null` filter. -/
def saveAnalysis (db : Db) (analysis : AnalysisResult)
    (recommendations : List RecommendedAction) : Db :=
  let validRecs := recommendations.filter (fun rec => rec.confidence.isSome)
  { analyses := db.analyses ++
      [{ id := analysis.id
         agentId := analysis.agentId
         analysis := analysis.analysis
         pluginsUsed := analysis.pluginsUsed
         executionTimeMs := analysis.executionTimeMs
         createdAt := analysis.createdAt }]
    actions := db.actions ++ validRecs.map (recToRow analysis.id) }

/-- AnalysisRepository.getAnalysisResult: first analysis row with the id
(`limit(1)`), plus every recommendation row of that analysis mapped through
`rowToRecAnalysis`. -/
def getAnalysisResult (db : Db) (analysisId : String) :
    Option (AnalysisResult × List RecommendedAction) :=
  match db.analyses.find? (fun row => row.id == analysisId) with
  | none => none
  | some row =>
    let actions := db.actions.filter (fun a => a.analysisId == analysisId)
    some ({ id := row.id
            agentId := row.agentId
            timestamp := row.createdAt
            analysis := row.analysis
            pluginsUsed := row.pluginsUsed
            executionTimeMs := row.executionTimeMs
            createdAt := row.createdAt },
          actions.map rowToRecAnalysis)

/-- Ordering used by the `orderBy(desc(priority), desc(confidence))` clause of
`getActionsByAnalysisId`: higher ordinal first, ties by higher confidence. -/
def rowOrder (a b : Row) : Prop :=
  b.priority < a.priority ∨ (a.priority = b.priority ∧ b.confidence ≤ a.confidence)

instance : DecidableRel rowOrder := fun a b => by
  unfold rowOrder; infer_instance

instance : IsTotal Row rowOrder where
  total a b := by
    unfold rowOrder
    rcases lt_trichotomy a.priority b.priority with h | h | h
    · exact Or.inr (Or.inl h)
    · rcases le_total b.confidence a.confidence with hc | hc
      · exact Or.inl (Or.inr ⟨h, hc⟩)
      · exact Or.inr (Or.inr ⟨h.symm, hc⟩)
    · exact Or.inl (Or.inl h)

instance : IsTrans Row rowOrder where
  trans a b c hab hbc := by
    unfold rowOrder at *
    rcases hab with h1 | ⟨h1, hc1⟩
    · rcases hbc with h2 | ⟨h2, _⟩
      · exact Or.inl (h2.trans h1)
      · exact Or.inl (h2 ▸ h1)
    · rcases hbc with h2 | ⟨h2, hc2⟩
      · exact Or.inl (h1 ▸ h2)
      · exact Or.inr ⟨h1.trans h2, hc2.trans hc1⟩

/-- Rows of one analysis in the order the database returns them: filtered by
`analysisId`, sorted by priority ordinal descending then confidence
descending. -/
def sortedRowsFor (db : Db) (analysisId : String) : List Row :=
  List.insertionSort rowOrder (db.actions.filter (fun r => r.analysisId == analysisId))

/-- AnalysisRepository.getActionsByAnalysisId. -/
def getActionsByAnalysisId (db : Db) (analysisId : String) : List RecommendedAction :=
  (sortedRowsFor db analysisId).map rowToRec

/-- First row with a given action id (`select ... limit(1)` on the id column). -/
def findRow (rows : List Row) (actionId : String) : Option Row :=
  rows.find? (fun r => r.id == actionId)

/-- AnalysisRepository.getActionById: throws `Action not found` when absent. -/
def getActionById (db : Db) (actionId : String) : Except String RecommendedAction :=
  match findRow db.actions actionId with
  | none => .error "Action not found"
  | some row => .ok (rowToRec row)

/-- JavaScript error-like value carried in `ActionResult.error`: an `Error`
object, a plain string, or some other truthy value, as distinguished by
`extractErrorMessage`. -/
inductive JsError where
  | errObj (message : String)
  | str (s : String)
  | other
deriving DecidableEq, Repr

/-- JS truthiness of the `error` field: absent and the empty string are falsy,
objects and non-empty strings are truthy. -/
def jsErrTruthy : Option JsError → Bool
  | none => false
  | some (.errObj _) => true
  | some (.str s) => !(s == "")
  | some .other => true

/-- Host-side `ActionResult` as read back from the state cache. -/
structure ActionResult where
  success : Bool
  text : Option String
  data : Option String
  values : Option String
  error : Option JsError
deriving DecidableEq, Repr

/-- Models `a || b` on optional serialized payloads (empty string is falsy). -/
def jsOrOpt (a b : Option String) : Option String :=
  match a with
  | some s => if s == "" then b else some s
  | none => b

/-- Models `a || b` where `a` is an optional string and `b` a string. -/
def jsOrStr (a : Option String) (b : String) : String :=
  match a with
  | some s => if s == "" then b else s
  | none => b

/-- Models `JSON.stringify` applied to an already-serialized optional payload. -/
def jsonStringify : Option String → String
  | some s => s
  | none => "undefined"

/-- utils extractErrorMessage: message of an `Error`, a non-empty string error
as-is, the default for other truthy errors or for a falsy error on a failed
result, nothing for a missing or successful result. -/
def extractErrorMessage (actionResult : Option ActionResult)
    (defaultMessage : String) : Option String :=
  match actionResult with
  | none => none
  | some ar =>
    if jsErrTruthy ar.error then
      match ar.error with
      | some (.errObj m) => some m
      | some (.str s) => some s
      | _ => some defaultMessage
    else if !ar.success then some defaultMessage
    else none

/-- utils getActionResultFromCache: first entry of the cached action-results
list, if any. -/
def getActionResultFromCache (cachedResults : List ActionResult) : Option ActionResult :=
  cachedResults.head?

/-- Observable outcome of dispatching one action into the host environment:
either the dispatch pipeline throws, or it completes and leaves a (possibly
empty) action-results list in the state cache. -/
inductive ExecOutcome where
  | throws (msg : String)
  | completes (cachedResults : List ActionResult)
deriving DecidableEq, Repr

/-- User decision on a recommended action (validated by the route). -/
inductive Decision where
  | accept
  | reject
deriving DecidableEq, Repr

/-- Environment of the DecisionProcessor: the names of the actions registered
in the runtime, the outcome of each action-id's background dispatch, and the
clock values observed at decision time and at execution-result time. -/
structure ExecEnv where
  runtimeActions : List String
  outcome : String → ExecOutcome
  decideTime : Nat
  execTime : Nat

/-- Drizzle `update ... where eq(id, actionId)`: applies the column-set
function to every row whose id matches. -/
def updateRows (rows : List Row) (actionId : String) (f : Row → Row) : List Row :=
  rows.map (fun r => if r.id == actionId then f r else r)

/-- Column set of the success branch of `processExecutingActions`. -/
def completedUpdate (env : ExecEnv) (ar : ActionResult) (r : Row) : Row :=
  { r with
    status := "completed"
    result := some
      { text := jsOrStr ar.text (jsonStringify (jsOrOpt ar.data ar.values))
        data := jsOrOpt ar.data ar.values
        timestamp := env.execTime }
    error := none
    executedAt := some env.execTime }

/-- Column set of the ran-but-failed and no-result branches. -/
def failedExecUpdate (env : ExecEnv) (msg : Option String) (r : Row) : Row :=
  { r with
    status := "failed"
    error := msg
    errorType := some "execution"
    executedAt := some env.execTime }

/-- Column set of the outermost catch: error kind `initialization` when the
caught message contains `not found`, otherwise `technical`. -/
def caughtUpdate (env : ExecEnv) (msg : String) (r : Row) : Row :=
  { r with
    status := "failed"
    error := some msg
    errorType := some (if jsIncludes msg "not found" then "initialization" else "technical")
    executedAt := some env.execTime }

/-- Body of the `try` block of `processExecutingActions` for one action id:
returns either the updated table (with the list of dispatched action names),
or the thrown message.  A dispatch is recorded once `processActions` is
invoked, i.e. when the action was found in the runtime. -/
def executingTryBody (env : ExecEnv) (rows : List Row) (actionId : String) :
    Except String (List Row) × List String :=
  match findRow rows actionId with
  | none => (.error "Action not found", [])
  | some rec =>
    if env.runtimeActions.contains rec.actionType then
      match env.outcome actionId with
      | .throws m => (.error m, [rec.actionType])
      | .completes cachedResults =>
        match getActionResultFromCache cachedResults with
        | some ar =>
          if ar.success then
            (.ok (updateRows rows actionId (completedUpdate env ar)), [rec.actionType])
          else
            (.ok (updateRows rows actionId
              (failedExecUpdate env (extractErrorMessage (some ar) "Action execution failed"))),
             [rec.actionType])
        | none =>
          (.ok (updateRows rows actionId
            (failedExecUpdate env (some "No result returned from action"))),
           [rec.actionType])
    else
      (.error ("Action " ++ rec.actionType ++ " not found in runtime"), [])

/-- DecisionProcessor.processExecutingActions for one action id: the `try`
body with the outermost catch that writes the terminal `failed` row. -/
def processExecutingAction (env : ExecEnv) (rows : List Row) (actionId : String) :
    List Row × List String :=
  match executingTryBody env rows actionId with
  | (.ok rows', dispatched) => (rows', dispatched)
  | (.error m, dispatched) => (updateRows rows actionId (caughtUpdate env m), dispatched)

/-- Column set of the reject branch of `processDecisions`. -/
def rejectUpdate (env : ExecEnv) (r : Row) : Row :=
  { r with status := "rejected", decidedAt := some env.decideTime }

/-- Synchronous column set of the accept branch of `executeActions`. -/
def execUpdate (env : ExecEnv) (r : Row) : Row :=
  { r with status := "executing", decidedAt := some env.decideTime }

/-- Accumulated outcome of `processDecisions`: the table, the accepted and
rejected response lists, and every action name dispatched into the host. -/
structure DecResult where
  rows : List Row
  accepted : List RecommendedAction
  rejected : List (String × String)
  dispatches : List String
deriving Repr

/-- One iteration of the `processDecisions` loop.  The accept branch performs
the synchronous `executing` update of `executeActions` and then the detached
`processExecutingActions` task; the model serializes that background task
immediately after its accept (one admissible interleaving — the claims here
concern single-decision batches, where this is the only interleaving). -/
def processOneDecision (env : ExecEnv) (st : DecResult)
    (d : String × Decision) : DecResult :=
  match d.2 with
  | .reject =>
    { st with
      rows := updateRows st.rows d.1 (rejectUpdate env)
      rejected := st.rejected ++ [(d.1, "rejected")] }
  | .accept =>
    match findRow st.rows d.1 with
    | none =>
      -- getActionById throws inside executeActions: nothing is updated or
      -- pushed, but the detached task is still launched with this id.
      let (rows', dispatched) := processExecutingAction env st.rows d.1
      { st with rows := rows', dispatches := st.dispatches ++ dispatched }
    | some row =>
      let rows1 := updateRows st.rows d.1 (execUpdate env)
      let acceptedRec :=
        { rowToRec row with status := "executing", decidedAt := some env.decideTime }
      let (rows2, dispatched) := processExecutingAction env rows1 d.1
      { rows := rows2
        accepted := st.accepted ++ [acceptedRec]
        rejected := st.rejected
        dispatches := st.dispatches ++ dispatched }

/-- DecisionProcessor.processDecisions over a batch of decisions. -/
def processDecisions (env : ExecEnv) (rows : List Row)
    (decisions : List (String × Decision)) : DecResult :=
  decisions.foldl (processOneDecision env) ⟨rows, [], [], []⟩

/-- Status of the first row with the given id, as a read would observe it. -/
def rowStatus (rows : List Row) (actionId : String) : Option String :=
  (findRow rows actionId).map (fun r => r.status)

/-- Error-kind column of the first row with the given id. -/
def rowErrorType (rows : List Row) (actionId : String) : Option (Option String) :=
  (findRow rows actionId).map (fun r => r.errorType)

/-- Error-message column of the first row with the given id. -/
def rowError (rows : List Row) (actionId : String) : Option (Option String) :=
  (findRow rows actionId).map (fun r => r.error)

/-- Host capability ("action") as discovered from the runtime registry. -/
structure Act where
  name : String
  plugin : Option String
deriving DecidableEq, Repr

/-- Category enum of the zod `actionCategorizationSchema`. -/
inductive Category where
  | DATA
  | ACTION
deriving DecidableEq, Repr

/-- Structured response of one categorization inference call
(zod-validated: category is exactly `DATA` or `ACTION`). -/
structure ClassResp where
  category : Category
  actionType : String
  confidence : Rat
  reasoning : String
deriving DecidableEq, Repr

/-- ActionCategorizer / RecommendationGenerator extractPluginName: the
action's `plugin` metadata when truthy, else the `:`-prefix of the name,
else `unknown`. -/
def extractPluginName (action : Act) : String :=
  match action.plugin with
  | some p => if p == "" then extractFromName action.name else p
  | none => extractFromName action.name
where
  extractFromName (name : String) : String :=
    let nameParts := name.splitOn ":"
    if nameParts.length > 1 then nameParts.headD "unknown" else "unknown"

/-- One entry of the `classifications` output list. -/
structure Classification where
  action : Act
  category : Category
  actionType : String
  confidence : Rat
  reasoning : String
  pluginName : String
deriving DecidableEq, Repr

/-- ActionCategorizer.categorizeAction under a response oracle. -/
def categorizeAction (resp : Act → Except String ClassResp) (action : Act) :
    Except String Classification :=
  match resp action with
  | .error e => .error e
  | .ok r =>
    .ok { action := action
          category := r.category
          actionType := r.actionType
          confidence := r.confidence
          reasoning := r.reasoning
          pluginName := extractPluginName action }

/-- Promise.all over the per-action classification calls: first rejection
rejects the join. -/
def classifyAll (resp : Act → Except String ClassResp) :
    List Act → Except String (List Classification)
  | [] => .ok []
  | a :: rest =>
    match categorizeAction resp a with
    | .error e => .error e
    | .ok c =>
      match classifyAll resp rest with
      | .error e => .error e
      | .ok cs => .ok (c :: cs)

/-- Insertion-ordered map from sub-type to its bucket of actions, as a JS
`Map<string, Action[]>` with unique keys. -/
abbrev AMap := List (String × List Act)

/-- Models `map.set(key, (map.get(key) || []).push(action))`: appends to the
existing bucket in place, or appends a new singleton bucket. -/
def mapPush (m : AMap) (key : String) (action : Act) : AMap :=
  match m with
  | [] => [(key, [action])]
  | (k, vs) :: rest =>
    if k == key then (k, vs ++ [action]) :: rest
    else (k, vs) :: mapPush rest key action

/-- Grouping loop of `categorize`: routes each classification's action into
the DATA map or the ACTION map, keyed by sub-type. -/
def groupClassifications : List Classification → AMap × AMap → AMap × AMap
  | [], acc => acc
  | c :: rest, (dataActions, actionActions) =>
    match c.category with
    | .DATA => groupClassifications rest (mapPush dataActions c.actionType c.action, actionActions)
    | .ACTION => groupClassifications rest (dataActions, mapPush actionActions c.actionType c.action)

/-- ActionCategorizer.categorize: classify every runtime action concurrently,
then group into the two maps. -/
def categorize (allActions : List Act) (resp : Act → Except String ClassResp) :
    Except String (AMap × AMap × List Classification) :=
  match classifyAll resp allActions with
  | .error e => .error e
  | .ok classifications =>
    let (dataActions, actionActions) := groupClassifications classifications ([], [])
    .ok (dataActions, actionActions, classifications)

/-- All actions stored in a grouping map, in bucket order. -/
def flattenMap (m : AMap) : List Act :=
  (m.map Prod.snd).flatten

/-- Structured response of one selection inference call. -/
structure SelResp where
  relevantActions : List String
  reasoning : String
deriving DecidableEq, Repr

/-- DataSelector.select under a per-group response oracle: each sub-type group
filters to the names the response proposes; a group whose call throws
contributes an empty list (caught, not propagated); the output is the
flattened union. -/
def select (dataActions : AMap) (resp : String → Except String SelResp) : List Act :=
  (dataActions.map (fun g =>
    match resp g.1 with
    | .ok r => g.2.filter (fun a => r.relevantActions.contains a.name)
    | .error _ => [])).flatten

/-- Structured response of one recommendation-generation inference call
(zod `generateRecommendationSchema`; `params` arrives as a key/value array). -/
structure RecResp where
  actionType : String
  pluginName : String
  priority : Priority
  reasoning : String
  confidence : Rat
  triggerMessage : String
  params : Option (List (String × String))
  estimatedImpact : String
  estimatedGas : Option String
deriving DecidableEq, Repr

/-- Per-action step of RecommendationGenerator.generate: a failing call yields
`none` (filtered out later); a successful one yields a fresh pending record
stamped with the current time.  The key/value params array is kept only when
non-empty, mirroring the `parsedParams` transformation. -/
def generateOneRec (analysisId : String) (recResp : Act → Except String RecResp)
    (newId : Act → String) (now : Nat) (action : Act) : Option RecommendedAction :=
  match recResp action with
  | .error _ => none
  | .ok r =>
    some { id := newId action
           analysisId := analysisId
           actionType := r.actionType
           pluginName := r.pluginName
           priority := r.priority
           reasoning := r.reasoning
           confidence := some r.confidence
           triggerMessage := r.triggerMessage
           params := match r.params with
             | some kvs => if kvs.length > 0 then some kvs else none
             | none => none
           estimatedImpact := some r.estimatedImpact
           estimatedGas := none
           status := "pending"
           decidedAt := none
           executedAt := none
           result := none
           error := none
           errorType := none
           createdAt := now }

/-- RecommendationGenerator.generate: per sub-type group, select relevant
actions (a failing group yields nothing), then generate one recommendation
per selected action (a failing action yields `null`, filtered out). -/
def generateRecommendations (analysisId : String) (actionActions : AMap)
    (selResp : String → Except String SelResp)
    (recResp : Act → Except String RecResp)
    (newId : Act → String) (now : Nat) : List RecommendedAction :=
  (actionActions.map (fun g =>
    match selResp g.1 with
    | .error _ => []
    | .ok sel =>
      let selectedActions := g.2.filter (fun a => sel.relevantActions.contains a.name)
      (selectedActions.map (generateOneRec analysisId recResp newId now)).filterMap id)).flatten

/-- Provider snapshot collected by the ProviderCollector. -/
structure ProviderData where
  providerName : String
  data : String
  timestamp : Nat
deriving DecidableEq, Repr

/-- Result of executing one DATA action (`AnalysisActionResult`). -/
structure ExecResult where
  actionType : String
  success : Bool
  data : Option String
  error : Option String
deriving DecidableEq, Repr

/-- External behaviour of one full analysis run: the runtime's actions, plus
one oracle per inference or host call.  `executeRes` packages the
DataExecutor stage (per-capability failure isolation happens inside it; an
`error` value models the whole stage throwing). -/
structure RunEnv where
  acts : List Act
  classResp : Act → Except String ClassResp
  providerData : Except String (List ProviderData)
  dataSelResp : String → Except String SelResp
  executeRes : List Act → Except String (List ExecResult × List String)
  insight : Except String AnalysisSections
  recSelResp : String → Except String SelResp
  recResp : Act → Except String RecResp
  newId : Act → String

/-- Plugins-used derivation of `runAnalysis` step 7: prefix of each successful
result's action type, deduplicated together with the provider names. -/
def pluginsUsedOf (dataResults : List ExecResult) (providerData : List ProviderData) :
    List String :=
  ((dataResults.filter (fun r => r.success)).map
      (fun r => jsOrStr ((r.actionType.splitOn ":").head?) "unknown")
    ++ providerData.map (fun p => p.providerName)).dedup

/-- SendoWorkerService.runAnalysis: the sequential orchestration of the eight
stages, threaded over the store, with a log naming each stage that was
entered.  A stage failure propagates (the outer catch logs and rethrows). -/
def runAnalysis (env : RunEnv) (db : Db) (agentId analysisId : String)
    (recTime saveTime : Nat) (executionTimeMs : Nat) :
    Except String (AnalysisResult × List RecommendedAction) × Db × List String :=
  let log0 := ["categorize"]
  match categorize env.acts env.classResp with
  | .error e => (.error e, db, log0)
  | .ok (dataActions, actionActions, _) =>
    let log1 := log0 ++ ["collect"]
    match env.providerData with
    | .error e => (.error e, db, log1)
    | .ok providerData =>
      let log2 := log1 ++ ["select"]
      let selectedDataActions := select dataActions env.dataSelResp
      let log3 := log2 ++ ["execute"]
      match env.executeRes selectedDataActions with
      | .error e => (.error e, db, log3)
      | .ok (dataResults, _roomIds) =>
        let log4 := log3 ++ ["insight"]
        match env.insight with
        | .error e => (.error e, db, log4)
        | .ok analysis =>
          let log5 := log4 ++ ["recommendations"]
          let recommendations := generateRecommendations analysisId actionActions
            env.recSelResp env.recResp env.newId recTime
          let result : AnalysisResult :=
            { id := analysisId
              agentId := agentId
              timestamp := saveTime
              analysis := analysis
              pluginsUsed := pluginsUsedOf dataResults providerData
              executionTimeMs := executionTimeMs
              createdAt := saveTime }
          let log6 := log5 ++ ["save"]
          (.ok (result, recommendations), saveAnalysis db result recommendations, log6)

/-- Priority round trip: the persisted ordinal decodes to the same name. -/
lemma PRIORITY_round_trip (p : Priority) : PRIORITY_NAMES (PRIORITY_VALUES p) = p := by
  cases p <;> rfl

/-- Sample row used to instantiate hypotheses at concrete inputs. -/
def sampleRow : Row :=
  { id := "a1"
    analysisId := "an1"
    actionType := "EXECUTE_SWAP"
    pluginName := "test-plugin"
    priority := 3
    reasoning := "Test reasoning"
    confidence := 17/20
    triggerMessage := "Test trigger"
    params := none
    estimatedImpact := none
    status := "pending"
    decidedAt := none
    executedAt := none
    result := none
    error := none
    errorType := none
    createdAt := 0 }

/-- Sample decision-processor environment. -/
def sampleEnv : ExecEnv :=
  { runtimeActions := ["EXECUTE_SWAP"]
    outcome := fun _ => .completes []
    decideTime := 5
    execTime := 9 }

/-- C5: every Recommendation's priority is drawn from {high, medium, low} and
persists as the ordinal 3/2/1 with high > medium > low, and the list
`getActionsByAnalysisId` returns is the row list sorted by priority ordinal
descending with ties broken by confidence descending, mapped to records. -/
theorem priorityOrdinalAndSortSpec :
    (PRIORITY_VALUES .high = 3 ∧ PRIORITY_VALUES .medium = 2 ∧ PRIORITY_VALUES .low = 1
      ∧ PRIORITY_VALUES .medium < PRIORITY_VALUES .high
      ∧ PRIORITY_VALUES .low < PRIORITY_VALUES .medium)
    ∧ (∀ (analysisId : String) (rec : RecommendedAction),
        (recToRow analysisId rec).priority = PRIORITY_VALUES rec.priority)
    ∧ (∀ (db : Db) (analysisId : String),
        getActionsByAnalysisId db analysisId = (sortedRowsFor db analysisId).map rowToRec
        ∧ (sortedRowsFor db analysisId).Sorted rowOrder) := by
  refine ⟨⟨rfl, rfl, rfl, by decide, by decide⟩, fun _ _ => rfl, fun db analysisId => ⟨rfl, ?_⟩⟩
  exact List.sorted_insertionSort rowOrder _

/-- C10: an out-of-vocabulary stored priority ordinal decodes to `medium` on
every read path (`getActionsByAnalysisId` / `getActionById` use `rowToRec`,
`getAnalysisResult` uses `rowToRecAnalysis`), and `getActionById` succeeds on
any stored row rather than failing. -/
theorem outOfVocabularyPriorityReadsMedium :
    (∀ p : Int, ¬(p = 1 ∨ p = 2 ∨ p = 3) → PRIORITY_NAMES p = .medium)
    ∧ (∀ row : Row, ¬(row.priority = 1 ∨ row.priority = 2 ∨ row.priority = 3) →
        (rowToRec row).priority = .medium ∧ (rowToRecAnalysis row).priority = .medium)
    ∧ (∀ (db : Db) (actionId : String),
        (∃ r ∈ db.actions, r.id = actionId) →
        ∃ a, getActionById db actionId = .ok a) := by
  have hmed : ∀ p : Int, ¬(p = 1 ∨ p = 2 ∨ p = 3) → PRIORITY_NAMES p = .medium := by
    intro p hp
    unfold PRIORITY_NAMES
    split
    · exact absurd (Or.inr (Or.inr rfl)) hp
    · rfl
    · exact absurd (Or.inl rfl) hp
    · rfl
  refine ⟨hmed, fun row hrow => ⟨hmed _ hrow, hmed _ hrow⟩, fun db actionId hex => ?_⟩
  obtain ⟨r, hr, hid⟩ := hex
  have : (findRow db.actions actionId).isSome := by
    unfold findRow
    rw [List.find?_isSome]
    exact ⟨r, hr, by simp [hid]⟩
  obtain ⟨row, hrow⟩ := Option.isSome_iff_exists.mp this
  exact ⟨rowToRec row, by simp [getActionById, hrow]⟩

/-- Witness for C10 at the concrete out-of-vocabulary ordinal 7. -/
theorem outOfVocabularyPriorityReadsMediumWitness :
    PRIORITY_NAMES 7 = .medium
    ∧ (rowToRec { sampleRow with priority := 7 }).priority = .medium
    ∧ ∃ a, getActionById ⟨[], [{ sampleRow with priority := 7 }]⟩ "a1" = .ok a := by
  refine ⟨outOfVocabularyPriorityReadsMedium.1 7 (by decide),
    (outOfVocabularyPriorityReadsMedium.2.1 { sampleRow with priority := 7 } (by decide)).1,
    outOfVocabularyPriorityReadsMedium.2.2 ⟨[], [{ sampleRow with priority := 7 }]⟩ "a1"
      ⟨{ sampleRow with priority := 7 }, List.mem_singleton.mpr rfl, rfl⟩⟩

/-- C7: a sub-type group whose selection inference call throws is isolated:
`select` still returns (it is total), and its output is exactly what the
remaining groups produce — the failing group contributes nothing. -/
theorem selectIsolatesFailingGroup (dataActions : AMap)
    (resp : String → Except String SelResp) (tStar e : String)
    (h : resp tStar = .error e) :
    select dataActions resp = select (dataActions.filter (fun g => g.1 != tStar)) resp := by
  induction dataActions with
  | nil => rfl
  | cons g rest ih =>
    have hstep : select (g :: rest) resp =
        (match resp g.1 with
          | Except.ok r => List.filter (fun a => r.relevantActions.contains a.name) g.2
          | Except.error _ => []) ++ select rest resp := rfl
    by_cases hk : g.1 = tStar
    · rw [List.filter_cons_of_neg (by simp [hk]), hstep, hk, h, List.nil_append]
      exact ih
    · rw [List.filter_cons_of_pos (by simp [hk]), hstep]
      have hstep2 : select (g :: List.filter (fun g => g.1 != tStar) rest) resp =
          (match resp g.1 with
            | Except.ok r => List.filter (fun a => r.relevantActions.contains a.name) g.2
            | Except.error _ => []) ++ select (List.filter (fun g => g.1 != tStar) rest) resp := rfl
      rw [hstep2, ih]

/-- Witness for C7: the `market_data` group's call throws; the result equals
the selection over the remaining groups alone. -/
theorem selectIsolatesFailingGroupWitness :
    select [("wallet_info", [⟨"GET_WALLET_BALANCE", none⟩]),
            ("market_data", [⟨"GET_MARKET_DATA", none⟩])]
        (fun t => if t == "market_data" then .error "LLM service unavailable"
                  else .ok ⟨["GET_WALLET_BALANCE"], "relevant"⟩) =
      select ([("wallet_info", [⟨"GET_WALLET_BALANCE", none⟩]),
               ("market_data", [⟨"GET_MARKET_DATA", none⟩])].filter
          (fun g => g.1 != "market_data"))
        (fun t => if t == "market_data" then .error "LLM service unavailable"
                  else .ok ⟨["GET_WALLET_BALANCE"], "relevant"⟩) :=
  selectIsolatesFailingGroup _ _ "market_data" "LLM service unavailable" rfl

/-- Pushing an action into a bucket map adds exactly that action: the flatten
of the updated map is a permutation of the action consed onto the old flatten. -/
lemma flattenMap_mapPush (m : AMap) (key : String) (action : Act) :
    (flattenMap (mapPush m key action)).Perm (action :: flattenMap m) := by
  induction m with
  | nil => simp [mapPush, flattenMap]
  | cons g rest ih =>
    by_cases hk : g.1 == key
    · obtain ⟨k, vs⟩ := g
      simp only [mapPush, hk, if_true, flattenMap, List.map_cons, List.flatten_cons]
      rw [List.append_assoc]
      exact List.perm_middle.trans (List.Perm.refl _)
    · obtain ⟨k, vs⟩ := g
      simp only [mapPush, hk, if_false, Bool.false_eq_true, flattenMap, List.map_cons,
        List.flatten_cons]
      have h1 : (vs ++ (List.map Prod.snd (mapPush rest key action)).flatten).Perm
          (vs ++ action :: (List.map Prod.snd rest).flatten) :=
        List.Perm.append_left vs ih
      exact h1.trans List.perm_middle

/-- Grouping a classification list into the two maps neither loses nor
duplicates an action: the combined flatten is a permutation of the
classified actions prepended to whatever the accumulator already held. -/
lemma groupClassifications_perm (cls : List Classification) (d aa : AMap) :
    (flattenMap (groupClassifications cls (d, aa)).1
      ++ flattenMap (groupClassifications cls (d, aa)).2).Perm
      (cls.map (fun c => c.action) ++ (flattenMap d ++ flattenMap aa)) := by
  induction cls generalizing d aa with
  | nil => simp [groupClassifications]
  | cons c rest ih =>
    cases hcat : c.category with
    | DATA =>
      have hrec := ih (mapPush d c.actionType c.action) aa
      have hinner : (flattenMap (mapPush d c.actionType c.action) ++ flattenMap aa).Perm
          (c.action :: (flattenMap d ++ flattenMap aa)) :=
        List.Perm.append_right (flattenMap aa) (flattenMap_mapPush d c.actionType c.action)
      have hstep : groupClassifications (c :: rest) (d, aa) =
          groupClassifications rest (mapPush d c.actionType c.action, aa) := by
        simp [groupClassifications, hcat]
      rw [hstep, List.map_cons, List.cons_append]
      exact (hrec.trans (List.Perm.append_left _ hinner)).trans
        (List.perm_middle.trans (List.Perm.refl _))
    | ACTION =>
      have hrec := ih d (mapPush aa c.actionType c.action)
      have hinner : (flattenMap d ++ flattenMap (mapPush aa c.actionType c.action)).Perm
          (c.action :: (flattenMap d ++ flattenMap aa)) :=
        (List.Perm.append_left (flattenMap d) (flattenMap_mapPush aa c.actionType c.action)).trans
          List.perm_middle
      have hstep : groupClassifications (c :: rest) (d, aa) =
          groupClassifications rest (d, mapPush aa c.actionType c.action) := by
        simp [groupClassifications, hcat]
      rw [hstep, List.map_cons, List.cons_append]
      exact (hrec.trans (List.Perm.append_left _ hinner)).trans
        (List.perm_middle.trans (List.Perm.refl _))

/-- Classification record produced for one action by a successful call. -/
def classifyOne (resp : Act → ClassResp) (action : Act) : Classification :=
  { action := action
    category := (resp action).category
    actionType := (resp action).actionType
    confidence := (resp action).confidence
    reasoning := (resp action).reasoning
    pluginName := extractPluginName action }

/-- Under an everywhere-successful oracle, `classifyAll` returns one
classification per input action, carrying exactly the input actions. -/
lemma classifyAll_ok (resp : Act → ClassResp) (allActions : List Act) :
    classifyAll (fun a => .ok (resp a)) allActions =
      .ok (allActions.map (classifyOne resp)) := by
  induction allActions with
  | nil => rfl
  | cons a rest ih => simp [classifyAll, categorizeAction, ih, classifyOne]

/-- C6: when every classification inference call succeeds, `categorize`
partitions the input capabilities: each input lands in exactly one bucket of
one of the two maps (combined flatten is a permutation of the input, so
nothing is lost or duplicated), and `classifications` has one entry per
input capability. -/
theorem categorizePartition (allActions : List Act) (resp : Act → ClassResp) :
    ∃ dataActions actionActions classifications,
      categorize allActions (fun a => .ok (resp a)) =
        .ok (dataActions, actionActions, classifications)
      ∧ classifications.length = allActions.length
      ∧ (flattenMap dataActions ++ flattenMap actionActions).Perm allActions := by
  have hcls := classifyAll_ok resp allActions
  have hmap : (allActions.map (classifyOne resp)).map (fun c => c.action) = allActions := by
    rw [List.map_map]
    exact (List.map_congr_left (fun a _ => rfl)).trans (List.map_id _)
  refine ⟨(groupClassifications (allActions.map (classifyOne resp)) ([], [])).1,
    (groupClassifications (allActions.map (classifyOne resp)) ([], [])).2,
    allActions.map (classifyOne resp), ?_, by simp, ?_⟩
  · simp [categorize, hcls]
  · have h := groupClassifications_perm (allActions.map (classifyOne resp)) [] []
    simpa [flattenMap, hmap] using h

/-- Shape of a freshly generated recommendation: attached to its analysis,
pending, confidence present, and every execution-related field still unset. -/
def GeneratedRec (analysisId : String) (rec : RecommendedAction) : Prop :=
  rec.analysisId = analysisId ∧ rec.confidence.isSome = true ∧ rec.status = "pending"
  ∧ rec.estimatedGas = none ∧ rec.decidedAt = none ∧ rec.executedAt = none
  ∧ rec.result = none ∧ rec.error = none ∧ rec.errorType = none

/-- Reading back a freshly persisted generated recommendation through the
`getAnalysisResult` mapping reproduces it field for field. -/
lemma rowToRecAnalysis_recToRow (analysisId : String) (rec : RecommendedAction)
    (h : GeneratedRec analysisId rec) :
    rowToRecAnalysis (recToRow analysisId rec) = rec := by
  obtain ⟨ha, hc, hs, hg, hd, he, hr, herr, het⟩ := h
  obtain ⟨c, hcv⟩ := Option.isSome_iff_exists.mp hc
  cases rec
  simp only at ha hs hg hd he hr herr het hcv
  subst ha hs hg hd he hr herr het hcv
  simp [rowToRecAnalysis, recToRow, PRIORITY_round_trip]

/-- C3: saving an Analysis with its generated Recommendations and fetching it
back by id returns the same Analysis and exactly the same Recommendation list
(in particular the same length N), field for field.  The second conjunct
shows every output of `generateRecommendations` has the generated shape the
first conjunct assumes. -/
theorem saveThenGetRoundtrip (db : Db) (analysis : AnalysisResult)
    (recs : List RecommendedAction)
    (hfreshA : ∀ row ∈ db.analyses, row.id ≠ analysis.id)
    (hfreshR : ∀ r ∈ db.actions, r.analysisId ≠ analysis.id)
    (hts : analysis.timestamp = analysis.createdAt)
    (hgen : ∀ rec ∈ recs, GeneratedRec analysis.id rec) :
    getAnalysisResult (saveAnalysis db analysis recs) analysis.id = some (analysis, recs)
    ∧ (∀ (analysisId : String) (groups : AMap) (selResp : String → Except String SelResp)
        (recResp : Act → Except String RecResp) (newId : Act → String) (now : Nat),
        ∀ rec ∈ generateRecommendations analysisId groups selResp recResp newId now,
          GeneratedRec analysisId rec) := by
  constructor
  · have hvalid : recs.filter (fun rec => rec.confidence.isSome) = recs :=
      List.filter_eq_self.mpr (fun rec hrec => (hgen rec hrec).2.1)
    have hfindOld : db.analyses.find? (fun row => row.id == analysis.id) = none := by
      rw [List.find?_eq_none]
      intro row hrow
      simpa using hfreshA row hrow
    have hfiltOld : db.actions.filter (fun a => a.analysisId == analysis.id) = [] := by
      rw [List.filter_eq_nil_iff]
      intro r hrw
      simpa using hfreshR r hrw
    have hfiltNew : (recs.map (recToRow analysis.id)).filter
        (fun a => a.analysisId == analysis.id) = recs.map (recToRow analysis.id) := by
      rw [List.filter_eq_self]
      intro r hrw
      obtain ⟨rec, _, hrec⟩ := List.mem_map.mp hrw
      simp [← hrec, recToRow]
    simp only [saveAnalysis, getAnalysisResult, hvalid, List.find?_append, hfindOld,
      Option.none_or, List.filter_append, hfiltOld, hfiltNew, List.nil_append,
      List.find?_cons, beq_self_eq_true, if_true]
    simp only [Option.some.injEq, Prod.mk.injEq]
    constructor
    · cases analysis
      simp only at hts
      subst hts
      rfl
    · rw [List.map_map]
      exact (List.map_congr_left
        (fun rec hrec => rowToRecAnalysis_recToRow analysis.id rec (hgen rec hrec))).trans
        (List.map_id _)
  · intro analysisId groups selResp recResp newId now rec hrec
    simp only [generateRecommendations, List.mem_flatten, List.mem_map] at hrec
    obtain ⟨bucket, ⟨g, _, hg⟩, hmem⟩ := hrec
    rcases hsel : selResp g.1 with e | sel
    · rw [← hg, hsel] at hmem
      simp at hmem
    · rw [← hg, hsel] at hmem
      simp only [List.mem_filterMap, List.mem_map, id_eq] at hmem
      obtain ⟨orec, ⟨a, _, hone⟩, hsome⟩ := hmem
      rw [← hone] at hsome
      unfold generateOneRec at hsome
      rcases hresp : recResp a with e | r
      · rw [hresp] at hsome
        simp at hsome
      · rw [hresp] at hsome
        simp only [Option.some.injEq] at hsome
        subst hsome
        exact ⟨rfl, rfl, rfl, rfl, rfl, rfl, rfl, rfl, rfl⟩

/-- Sample analysis record for concrete instantiations. -/
def sampleAnalysis : AnalysisResult :=
  { id := "an1"
    agentId := "agent1"
    timestamp := 3
    analysis := ⟨"wallet", "market", "risk", "opportunities"⟩
    pluginsUsed := ["test-plugin"]
    executionTimeMs := 100
    createdAt := 3 }

/-- Sample freshly generated recommendation. -/
def sampleGenRec : RecommendedAction :=
  { id := "a1"
    analysisId := "an1"
    actionType := "EXECUTE_SWAP"
    pluginName := "test-plugin"
    priority := .high
    reasoning := "Test reasoning"
    confidence := some (9/10)
    triggerMessage := "Test trigger"
    params := none
    estimatedImpact := some "High"
    estimatedGas := none
    status := "pending"
    decidedAt := none
    executedAt := none
    result := none
    error := none
    errorType := none
    createdAt := 3 }

/-- Witness for C3 on an empty store, one analysis, one recommendation. -/
theorem saveThenGetRoundtripWitness :
    getAnalysisResult (saveAnalysis ⟨[], []⟩ sampleAnalysis [sampleGenRec]) sampleAnalysis.id
      = some (sampleAnalysis, [sampleGenRec]) :=
  (saveThenGetRoundtrip ⟨[], []⟩ sampleAnalysis [sampleGenRec]
    (by intro row hrow; simp at hrow)
    (by intro r hr; simp at hr)
    rfl
    (by
      intro rec hrec
      rw [List.mem_singleton] at hrec
      subst hrec
      exact ⟨rfl, rfl, rfl, rfl, rfl, rfl, rfl, rfl, rfl⟩)).1

/-- C8: if the single insight-generation inference call fails, the whole run
fails: `runAnalysis` propagates exactly that error to its caller, the store
is unchanged (no Analysis row, no Recommendation rows), and neither the
recommendation-generation stage nor the save stage is ever entered. -/
theorem insightFailureAbortsRun (env : RunEnv) (db : Db) (agentId analysisId : String)
    (recTime saveTime ms : Nat)
    (dataActions actionActions : AMap) (cls : List Classification)
    (pd : List ProviderData) (exRes : List ExecResult × List String) (e : String)
    (hcat : categorize env.acts env.classResp = .ok (dataActions, actionActions, cls))
    (hpd : env.providerData = .ok pd)
    (hex : env.executeRes (select dataActions env.dataSelResp) = .ok exRes)
    (hins : env.insight = .error e) :
    runAnalysis env db agentId analysisId recTime saveTime ms =
      (.error e, db, ["categorize", "collect", "select", "execute", "insight"])
    ∧ "recommendations" ∉ (["categorize", "collect", "select", "execute", "insight"] : List String)
    ∧ "save" ∉ (["categorize", "collect", "select", "execute", "insight"] : List String) := by
  refine ⟨?_, by decide, by decide⟩
  simp only [runAnalysis, hcat, hpd, hex, hins]
  rfl

/-- Sample run environment whose insight call fails and whose other stages
succeed trivially. -/
def sampleRunEnv : RunEnv :=
  { acts := []
    classResp := fun _ => .ok ⟨.DATA, "wallet_info", 1/2, "reason"⟩
    providerData := .ok []
    dataSelResp := fun _ => .ok ⟨[], "reason"⟩
    executeRes := fun _ => .ok ([], [])
    insight := .error "insight model call failed"
    recSelResp := fun _ => .ok ⟨[], "reason"⟩
    recResp := fun _ => .error "unused"
    newId := fun a => a.name }

/-- Witness for C8 at the sample environment. -/
theorem insightFailureAbortsRunWitness :
    runAnalysis sampleRunEnv ⟨[], []⟩ "agent1" "an1" 0 0 0 =
      (.error "insight model call failed", (⟨[], []⟩ : Db),
        ["categorize", "collect", "select", "execute", "insight"]) :=
  (insightFailureAbortsRun sampleRunEnv ⟨[], []⟩ "agent1" "an1" 0 0 0
    [] [] [] [] ([], []) "insight model call failed" rfl rfl rfl rfl).1


/-- Updating by id commutes with looking up by id, for column sets that keep
the primary key. -/
lemma findRow_updateRows (rows : List Row) (actionId : String) (f : Row → Row)
    (hf : ∀ r, (f r).id = r.id) :
    findRow (updateRows rows actionId f) actionId = (findRow rows actionId).map f := by
  induction rows with
  | nil => rfl
  | cons r rest ih =>
    show List.find? (fun x => x.id == actionId)
        ((if r.id == actionId then f r else r) :: updateRows rest actionId f)
      = (List.find? (fun x => x.id == actionId) (r :: rest)).map f
    by_cases h : (r.id == actionId) = true
    · have hp : ((f r).id == actionId) = true := by rw [hf]; exact h
      simp [if_pos h, List.find?_cons, hp, h]
    · simp only [if_neg h, List.find?_cons, h, Bool.false_eq_true, if_false]
      exact ih

/-- Two successive updates to the same id compose, for a first column set
that keeps the primary key. -/
lemma updateRows_updateRows (rows : List Row) (actionId : String) (f g : Row → Row)
    (hf : ∀ r, (f r).id = r.id) :
    updateRows (updateRows rows actionId f) actionId g =
      updateRows rows actionId (fun r => g (f r)) := by
  unfold updateRows
  rw [List.map_map]
  refine List.map_congr_left (fun a _ => ?_)
  by_cases h : (a.id == actionId) = true
  · have hp : ((f a).id == actionId) = true := by rw [hf]; exact h
    simp only [Function.comp_apply, if_pos h, if_pos hp]
  · simp only [Function.comp_apply, if_neg h]

/-- Combined column set an accepted action's row undergoes once the detached
background task has finished, expressed from the first row fetched by the
synchronous accept step. -/
def acceptFinalUpdate (env : ExecEnv) (actionId : String) (row : Row) : Row → Row :=
  if env.runtimeActions.contains row.actionType then
    match env.outcome actionId with
    | .throws m => fun r => caughtUpdate env m (execUpdate env r)
    | .completes cachedResults =>
      match getActionResultFromCache cachedResults with
      | some ar =>
        if ar.success then fun r => completedUpdate env ar (execUpdate env r)
        else fun r => failedExecUpdate env
          (extractErrorMessage (some ar) "Action execution failed") (execUpdate env r)
      | none => fun r => failedExecUpdate env
          (some "No result returned from action") (execUpdate env r)
  else fun r =>
    caughtUpdate env ("Action " ++ row.actionType ++ " not found in runtime") (execUpdate env r)

/-- Characterization of a single accepted decision: the table is the original
with the accept-path composite update applied at the id, and the response
carries the record flipped to `executing`. -/
lemma processDecisions_accept (env : ExecEnv) (rows : List Row) (actionId : String)
    (row : Row) (hfind : findRow rows actionId = some row) :
    (processDecisions env rows [(actionId, .accept)]).rows =
      updateRows rows actionId (acceptFinalUpdate env actionId row)
    ∧ (processDecisions env rows [(actionId, .accept)]).accepted =
      [{ rowToRec row with status := "executing", decidedAt := some env.decideTime }] := by
  have hfind1 : findRow (updateRows rows actionId (execUpdate env)) actionId =
      some (execUpdate env row) := by
    rw [findRow_updateRows rows actionId (execUpdate env) (fun r => rfl), hfind]
    rfl
  have hcomp : ∀ g : Row → Row,
      updateRows (updateRows rows actionId (execUpdate env)) actionId g =
        updateRows rows actionId (fun r => g (execUpdate env r)) :=
    fun g => updateRows_updateRows rows actionId (execUpdate env) g (fun r => rfl)
  have hact : (execUpdate env row).actionType = row.actionType := rfl
  simp only [processDecisions, List.foldl_cons, List.foldl_nil, processOneDecision, hfind,
    processExecutingAction, executingTryBody, hfind1, hact]
  unfold acceptFinalUpdate
  by_cases hc : env.runtimeActions.contains row.actionType = true
  · simp only [hc, if_true]
    rcases ho : env.outcome actionId with m | cachedResults
    · simp only [ho, hcomp]
      exact ⟨trivial, rfl⟩
    · simp only [ho]
      rcases hca : getActionResultFromCache cachedResults with _ | ar
      · simp only [hca, hcomp]
        exact ⟨trivial, rfl⟩
      · by_cases hs : ar.success = true
        · simp only [hca, hs, if_true, hcomp]
          exact ⟨trivial, rfl⟩
        · simp only [hca, hs, Bool.false_eq_true, if_false, hcomp]
          exact ⟨trivial, rfl⟩
  · simp only [hc, Bool.false_eq_true, if_false, hcomp]
    exact ⟨trivial, rfl⟩

/-- The accept-path composite update never changes the primary key. -/
lemma acceptFinalUpdate_id (env : ExecEnv) (actionId : String) (row r : Row) :
    (acceptFinalUpdate env actionId row r).id = r.id := by
  unfold acceptFinalUpdate
  by_cases hc : env.runtimeActions.contains row.actionType = true
  · rw [if_pos hc]
    rcases ho : env.outcome actionId with m | cachedResults
    · simp only [ho]
      rfl
    · simp only [ho]
      rcases hca : getActionResultFromCache cachedResults with _ | ar
      · simp only [hca]
        rfl
      · simp only [hca]
        by_cases hs : ar.success = true
        · simp only [hs, if_true]
          rfl
        · simp only [hs, Bool.false_eq_true, if_false]
          rfl
  · rw [if_neg hc]
    rfl

/-- The accept-path composite update always lands in a terminal execution
status. -/
lemma acceptFinalUpdate_terminal (env : ExecEnv) (actionId : String) (row r : Row) :
    (acceptFinalUpdate env actionId row r).status = "completed"
    ∨ (acceptFinalUpdate env actionId row r).status = "failed" := by
  unfold acceptFinalUpdate
  by_cases hc : env.runtimeActions.contains row.actionType = true
  · rw [if_pos hc]
    rcases ho : env.outcome actionId with m | cachedResults
    · simp only [ho]
      exact Or.inr rfl
    · simp only [ho]
      rcases hca : getActionResultFromCache cachedResults with _ | ar
      · simp only [hca]
        exact Or.inr rfl
      · simp only [hca]
        by_cases hs : ar.success = true
        · simp only [hs, if_true]
          exact Or.inl rfl
        · simp only [hs, Bool.false_eq_true, if_false]
          exact Or.inr rfl
  · rw [if_neg hc]
    exact Or.inr rfl

/-- C9: rejecting a pending Recommendation is a single update that sets
status to `rejected` and decidedAt to now, dispatches nothing into the host
environment, returns it in the `rejected` response list only, and leaves
every other column of every row unchanged. -/
theorem rejectSingleUpdateFrame (env : ExecEnv) (rows : List Row) (actionId : String)
    (row : Row) (hfind : findRow rows actionId = some row) (hp : row.status = "pending") :
    (processDecisions env rows [(actionId, .reject)]).rows =
      updateRows rows actionId (rejectUpdate env)
    ∧ (processDecisions env rows [(actionId, .reject)]).accepted = []
    ∧ (processDecisions env rows [(actionId, .reject)]).rejected = [(actionId, "rejected")]
    ∧ (processDecisions env rows [(actionId, .reject)]).dispatches = []
    ∧ rowStatus (processDecisions env rows [(actionId, .reject)]).rows actionId =
        some "rejected"
    ∧ (∀ r : Row, (rejectUpdate env r).status = "rejected"
        ∧ (rejectUpdate env r).decidedAt = some env.decideTime
        ∧ (rejectUpdate env r).id = r.id
        ∧ (rejectUpdate env r).analysisId = r.analysisId
        ∧ (rejectUpdate env r).actionType = r.actionType
        ∧ (rejectUpdate env r).pluginName = r.pluginName
        ∧ (rejectUpdate env r).priority = r.priority
        ∧ (rejectUpdate env r).reasoning = r.reasoning
        ∧ (rejectUpdate env r).confidence = r.confidence
        ∧ (rejectUpdate env r).triggerMessage = r.triggerMessage
        ∧ (rejectUpdate env r).params = r.params
        ∧ (rejectUpdate env r).estimatedImpact = r.estimatedImpact
        ∧ (rejectUpdate env r).executedAt = r.executedAt
        ∧ (rejectUpdate env r).result = r.result
        ∧ (rejectUpdate env r).error = r.error
        ∧ (rejectUpdate env r).errorType = r.errorType
        ∧ (rejectUpdate env r).createdAt = r.createdAt)
    ∧ (∀ r ∈ rows, (r.id == actionId) = false →
        r ∈ (processDecisions env rows [(actionId, .reject)]).rows) := by
  refine ⟨rfl, rfl, rfl, rfl, ?_, ?_, ?_⟩
  · show (findRow (updateRows rows actionId (rejectUpdate env)) actionId).map
        (fun r => r.status) = some "rejected"
    rw [findRow_updateRows rows actionId (rejectUpdate env) (fun r => rfl), hfind]
    rfl
  · exact fun r => ⟨rfl, rfl, rfl, rfl, rfl, rfl, rfl, rfl, rfl, rfl, rfl, rfl, rfl, rfl,
      rfl, rfl, rfl⟩
  · intro r hr hne
    show r ∈ updateRows rows actionId (rejectUpdate env)
    have himg : (if r.id == actionId then rejectUpdate env r else r) = r := by
      rw [hne]
      rfl
    exact himg ▸ List.mem_map_of_mem _ hr

/-- Witness for C9 at the sample pending row. -/
theorem rejectSingleUpdateFrameWitness :
    (processDecisions sampleEnv [sampleRow] [("a1", .reject)]).rows =
      updateRows [sampleRow] "a1" (rejectUpdate sampleEnv)
    ∧ (processDecisions sampleEnv [sampleRow] [("a1", .reject)]).dispatches = []
    ∧ rowStatus (processDecisions sampleEnv [sampleRow] [("a1", .reject)]).rows "a1" =
        some "rejected" :=
  ⟨(rejectSingleUpdateFrame sampleEnv [sampleRow] "a1" sampleRow rfl rfl).1,
   (rejectSingleUpdateFrame sampleEnv [sampleRow] "a1" sampleRow rfl rfl).2.2.2.1,
   (rejectSingleUpdateFrame sampleEnv [sampleRow] "a1" sampleRow rfl rfl).2.2.2.2.1⟩

/-- Counterexample to C1 as stated: `processDecisions` has no terminal-state
guard, so rejecting an already-completed Recommendation moves it from the
terminal status `completed` back to `rejected`. -/
theorem decisionTerminalNotGuarded :
    rowStatus (processDecisions sampleEnv
        [{ sampleRow with status := "completed", decidedAt := some 1, executedAt := some 2 }]
        [("a1", .reject)]).rows "a1" = some "rejected"
    ∧ ("rejected" : String) ≠ "completed" := by
  exact ⟨rfl, by decide⟩

/-- C1 as amended: for a Recommendation decided once from `pending`, the
observed transitions are exactly the specified ones — reject lands in
`rejected`, accept lands synchronously in `executing` (as returned in the
accepted list) and the background path terminates in `completed` or `failed`;
but the processor never checks the current status, so a later decision can
re-transition even a terminal Recommendation (see the counterexample). -/
theorem decisionTransitionsFromPending (env : ExecEnv) (rows : List Row)
    (actionId : String) (row : Row)
    (hfind : findRow rows actionId = some row) (hp : row.status = "pending") :
    rowStatus (processDecisions env rows [(actionId, .reject)]).rows actionId =
      some "rejected"
    ∧ (processDecisions env rows [(actionId, .accept)]).accepted =
        [{ rowToRec row with status := "executing", decidedAt := some env.decideTime }]
    ∧ (rowStatus (processDecisions env rows [(actionId, .accept)]).rows actionId =
        some "completed"
      ∨ rowStatus (processDecisions env rows [(actionId, .accept)]).rows actionId =
        some "failed") := by
  obtain ⟨hrows, hacc⟩ := processDecisions_accept env rows actionId row hfind
  refine ⟨?_, hacc, ?_⟩
  · show (findRow (updateRows rows actionId (rejectUpdate env)) actionId).map
        (fun r => r.status) = some "rejected"
    rw [findRow_updateRows rows actionId (rejectUpdate env) (fun r => rfl), hfind]
    rfl
  · have hfinal : findRow (processDecisions env rows [(actionId, .accept)]).rows actionId =
        some (acceptFinalUpdate env actionId row row) := by
      rw [hrows, findRow_updateRows rows actionId (acceptFinalUpdate env actionId row)
        (acceptFinalUpdate_id env actionId row), hfind]
      rfl
    rcases acceptFinalUpdate_terminal env actionId row row with ht | ht
    · exact Or.inl (by rw [rowStatus, hfinal]; exact congrArg some ht)
    · exact Or.inr (by rw [rowStatus, hfinal]; exact congrArg some ht)

/-- Witness for the amended C1 at the sample pending row. -/
theorem decisionTransitionsFromPendingWitness :
    rowStatus (processDecisions sampleEnv [sampleRow] [("a1", .reject)]).rows "a1" =
      some "rejected"
    ∧ (rowStatus (processDecisions sampleEnv [sampleRow] [("a1", .accept)]).rows "a1" =
        some "completed"
      ∨ rowStatus (processDecisions sampleEnv [sampleRow] [("a1", .accept)]).rows "a1" =
        some "failed") :=
  ⟨(decisionTransitionsFromPending sampleEnv [sampleRow] "a1" sampleRow rfl rfl).1,
   (decisionTransitionsFromPending sampleEnv [sampleRow] "a1" sampleRow rfl rfl).2.2⟩

/-- A pattern occurring in a suffix occurs in the whole list. -/
lemma charsInfix_append (pat l2 : List Char) (h : charsInfix pat l2 = true)
    (l1 : List Char) : charsInfix pat (l1 ++ l2) = true := by
  induction l1 with
  | nil => exact h
  | cons c rest ih =>
    show (charsPrefix pat (c :: (rest ++ l2)) || charsInfix pat (rest ++ l2)) = true
    rw [ih]
    exact Bool.or_true _

/-- The not-found message built for a missing capability always triggers the
`initialization` branch of the error-kind heuristic. -/
lemma jsIncludes_notFoundMessage (t : String) :
    jsIncludes ("Action " ++ t ++ " not found in runtime") "not found" = true := by
  unfold jsIncludes
  have hdata : ("Action " ++ t ++ " not found in runtime").toList
      = ("Action " ++ t).toList ++ (" not found in runtime").toList := by
    simp [String.toList]
  rw [hdata]
  exact charsInfix_append _ _ (by decide) _

/-- A failed ActionResult always yields an extracted error message. -/
lemma extractErrorMessage_failed (ar : ActionResult) (d : String)
    (hs : ar.success = false) :
    ∃ m, extractErrorMessage (some ar) d = some m := by
  have hred : extractErrorMessage (some ar) d =
      if jsErrTruthy ar.error = true then
        match ar.error with
        | some (.errObj m) => some m
        | some (.str s) => some s
        | _ => some d
      else if (!ar.success) = true then some d else none := rfl
  rw [hred]
  rcases he : ar.error with _ | je
  · rw [if_neg (by simp [jsErrTruthy])]
    rw [hs]
    exact ⟨d, by simp⟩
  · cases je with
    | errObj msg =>
      rw [if_pos (by rfl)]
      exact ⟨msg, rfl⟩
    | str s =>
      by_cases hse : (s == "") = true
      · rw [if_neg (by simp [jsErrTruthy, hse])]
        rw [hs]
        exact ⟨d, by simp⟩
      · rw [if_pos (by simp [jsErrTruthy, hse])]
        exact ⟨s, rfl⟩
    | other =>
      rw [if_pos (by rfl)]
      exact ⟨d, rfl⟩

/-- The four ways the background execution path of an accepted action can
fail: capability absent from the runtime, dispatch pipeline throws, no result
in the cache, or the capability ran and signalled failure. -/
def BackgroundFails (env : ExecEnv) (actionId : String) (row : Row) : Prop :=
  env.runtimeActions.contains row.actionType = false
  ∨ (∃ m, env.outcome actionId = .throws m)
  ∨ env.outcome actionId = .completes []
  ∨ (∃ ar rest, env.outcome actionId = .completes (ar :: rest) ∧ ar.success = false)

/-- C2 as amended: whenever the background execution path of an accepted
Recommendation fails, it always resolves -- never re-thrown, never left in
`executing` -- into the terminal status `failed` with an error message set and
an error kind among `initialization`, `execution` and `technical`:
`initialization` when the capability is absent (the message carries
`not found`), `execution` when the capability ran but failed or returned
nothing, and `technical` (not `execution`, as the claim stated) for any other
thrown exception whose message lacks `not found`. -/
theorem backgroundFailureTerminalFailed (env : ExecEnv) (rows : List Row)
    (actionId : String) (row : Row)
    (hfind : findRow rows actionId = some row)
    (hfail : BackgroundFails env actionId row) :
    rowStatus (processDecisions env rows [(actionId, .accept)]).rows actionId = some "failed"
    ∧ (∃ m, rowError (processDecisions env rows [(actionId, .accept)]).rows actionId =
        some (some m))
    ∧ (∃ k, rowErrorType (processDecisions env rows [(actionId, .accept)]).rows actionId =
        some (some k) ∧ (k = "initialization" ∨ k = "execution" ∨ k = "technical"))
    ∧ (findRow (processDecisions env rows [(actionId, .accept)]).rows actionId).map
        (fun r => r.executedAt) = some (some env.execTime)
    ∧ (env.runtimeActions.contains row.actionType = false →
        rowError (processDecisions env rows [(actionId, .accept)]).rows actionId =
          some (some ("Action " ++ row.actionType ++ " not found in runtime"))
        ∧ rowErrorType (processDecisions env rows [(actionId, .accept)]).rows actionId =
          some (some "initialization"))
    ∧ (∀ m, env.runtimeActions.contains row.actionType = true →
        env.outcome actionId = .throws m →
        rowError (processDecisions env rows [(actionId, .accept)]).rows actionId =
          some (some m)
        ∧ rowErrorType (processDecisions env rows [(actionId, .accept)]).rows actionId =
          some (some (if jsIncludes m "not found" then "initialization" else "technical")))
    ∧ (env.runtimeActions.contains row.actionType = true →
        env.outcome actionId = .completes [] →
        rowError (processDecisions env rows [(actionId, .accept)]).rows actionId =
          some (some "No result returned from action")
        ∧ rowErrorType (processDecisions env rows [(actionId, .accept)]).rows actionId =
          some (some "execution"))
    ∧ (∀ ar rest, env.runtimeActions.contains row.actionType = true →
        env.outcome actionId = .completes (ar :: rest) → ar.success = false →
        rowError (processDecisions env rows [(actionId, .accept)]).rows actionId =
          some (extractErrorMessage (some ar) "Action execution failed")
        ∧ rowErrorType (processDecisions env rows [(actionId, .accept)]).rows actionId =
          some (some "execution")) := by
  obtain ⟨hrows, -⟩ := processDecisions_accept env rows actionId row hfind
  have hfinal : findRow (processDecisions env rows [(actionId, .accept)]).rows actionId =
      some (acceptFinalUpdate env actionId row row) := by
    rw [hrows, findRow_updateRows rows actionId (acceptFinalUpdate env actionId row)
      (acceptFinalUpdate_id env actionId row), hfind]
    rfl
  have hS : rowStatus (processDecisions env rows [(actionId, .accept)]).rows actionId =
      some ((acceptFinalUpdate env actionId row row).status) := by
    rw [rowStatus, hfinal]
    rfl
  have hE : rowError (processDecisions env rows [(actionId, .accept)]).rows actionId =
      some ((acceptFinalUpdate env actionId row row).error) := by
    rw [rowError, hfinal]
    rfl
  have hT : rowErrorType (processDecisions env rows [(actionId, .accept)]).rows actionId =
      some ((acceptFinalUpdate env actionId row row).errorType) := by
    rw [rowErrorType, hfinal]
    rfl
  have hX : (findRow (processDecisions env rows [(actionId, .accept)]).rows actionId).map
      (fun r => r.executedAt) = some ((acceptFinalUpdate env actionId row row).executedAt) := by
    rw [hfinal]
    rfl
  have modeA : env.runtimeActions.contains row.actionType = false →
      acceptFinalUpdate env actionId row row =
        caughtUpdate env ("Action " ++ row.actionType ++ " not found in runtime")
          (execUpdate env row) := by
    intro hc
    unfold acceptFinalUpdate
    rw [if_neg (fun hcontra => by rw [hcontra] at hc; exact absurd hc (by decide))]
  have modeB : ∀ m, env.runtimeActions.contains row.actionType = true →
      env.outcome actionId = .throws m →
      acceptFinalUpdate env actionId row row = caughtUpdate env m (execUpdate env row) := by
    intro m hc ho
    unfold acceptFinalUpdate
    rw [if_pos hc]
    simp only [ho]
  have modeC : env.runtimeActions.contains row.actionType = true →
      env.outcome actionId = .completes [] →
      acceptFinalUpdate env actionId row row =
        failedExecUpdate env (some "No result returned from action") (execUpdate env row) := by
    intro hc ho
    unfold acceptFinalUpdate
    rw [if_pos hc]
    simp only [ho, getActionResultFromCache, List.head?]
  have modeD : ∀ ar rest, env.runtimeActions.contains row.actionType = true →
      env.outcome actionId = .completes (ar :: rest) → ar.success = false →
      acceptFinalUpdate env actionId row row =
        failedExecUpdate env (extractErrorMessage (some ar) "Action execution failed")
          (execUpdate env row) := by
    intro ar rest hc ho hs
    unfold acceptFinalUpdate
    rw [if_pos hc]
    simp only [ho, getActionResultFromCache, List.head?, hs, Bool.false_eq_true, if_false]
  have hagg : (acceptFinalUpdate env actionId row row).status = "failed"
      ∧ (∃ m, (acceptFinalUpdate env actionId row row).error = some m)
      ∧ (∃ k, (acceptFinalUpdate env actionId row row).errorType = some k
          ∧ (k = "initialization" ∨ k = "execution" ∨ k = "technical"))
      ∧ (acceptFinalUpdate env actionId row row).executedAt = some env.execTime := by
    by_cases hc : env.runtimeActions.contains row.actionType = true
    · rcases hfail with hcf | ⟨m, ho⟩ | ho | ⟨ar, rest, ho, hs⟩
      · rw [hc] at hcf
        exact absurd hcf (by decide)
      · rw [modeB m hc ho]
        refine ⟨rfl, ⟨m, rfl⟩,
          ⟨if jsIncludes m "not found" then "initialization" else "technical", rfl, ?_⟩, rfl⟩
        by_cases hj : jsIncludes m "not found" = true
        · rw [if_pos hj]
          exact Or.inl rfl
        · rw [if_neg hj]
          exact Or.inr (Or.inr rfl)
      · rw [modeC hc ho]
        exact ⟨rfl, ⟨_, rfl⟩, ⟨"execution", rfl, Or.inr (Or.inl rfl)⟩, rfl⟩
      · rw [modeD ar rest hc ho hs]
        obtain ⟨m, hm⟩ := extractErrorMessage_failed ar "Action execution failed" hs
        exact ⟨rfl, ⟨m, hm⟩, ⟨"execution", rfl, Or.inr (Or.inl rfl)⟩, rfl⟩
    · have hcf : env.runtimeActions.contains row.actionType = false := by simpa using hc
      rw [modeA hcf]
      refine ⟨rfl, ⟨_, rfl⟩, ⟨"initialization", ?_, Or.inl rfl⟩, rfl⟩
      simp [caughtUpdate, jsIncludes_notFoundMessage]
  obtain ⟨hst, ⟨m0, hm0⟩, ⟨k0, hk0, hk0mem⟩, hexec⟩ := hagg
  refine ⟨by rw [hS]; exact congrArg some hst,
    ⟨m0, by rw [hE]; exact congrArg some hm0⟩,
    ⟨k0, by rw [hT]; exact congrArg some hk0, hk0mem⟩,
    by rw [hX]; exact congrArg some hexec, ?_, ?_, ?_, ?_⟩
  · intro hc
    constructor
    · rw [hE, modeA hc]
      rfl
    · rw [hT, modeA hc]
      simp [caughtUpdate, jsIncludes_notFoundMessage]
  · intro m hc ho
    exact ⟨by rw [hE, modeB m hc ho]; rfl, by rw [hT, modeB m hc ho]; rfl⟩
  · intro hc ho
    exact ⟨by rw [hE, modeC hc ho]; rfl, by rw [hT, modeC hc ho]; rfl⟩
  · intro ar rest hc ho hs
    exact ⟨by rw [hE, modeD ar rest hc ho hs]; rfl,
      by rw [hT, modeD ar rest hc ho hs]; rfl⟩

/-- Counterexample to C2 as stated: an exception thrown during the background
path whose message lacks `not found` (here `boom`) is recorded with error
kind `technical`, which is neither `initialization` nor `execution`. -/
theorem backgroundTechnicalErrorType :
    rowStatus (processDecisions { sampleEnv with outcome := fun _ => .throws "boom" }
        [sampleRow] [("a1", .accept)]).rows "a1" = some "failed"
    ∧ rowErrorType (processDecisions { sampleEnv with outcome := fun _ => .throws "boom" }
        [sampleRow] [("a1", .accept)]).rows "a1" = some (some "technical")
    ∧ ("technical" : String) ≠ "initialization"
    ∧ ("technical" : String) ≠ "execution" := by
  exact ⟨rfl, rfl, by decide, by decide⟩

/-- Witness for the amended C2: the thrown-exception failure mode at the
sample row ends in the terminal `failed` status. -/
theorem backgroundFailureTerminalFailedWitness :
    rowStatus (processDecisions { sampleEnv with outcome := fun _ => .throws "stream closed" }
        [sampleRow] [("a1", .accept)]).rows "a1" = some "failed"
    ∧ (∃ m, rowError (processDecisions
        { sampleEnv with outcome := fun _ => .throws "stream closed" }
        [sampleRow] [("a1", .accept)]).rows "a1" = some (some m)) :=
  ⟨(backgroundFailureTerminalFailed { sampleEnv with outcome := fun _ => .throws "stream closed" }
      [sampleRow] "a1" sampleRow rfl (Or.inr (Or.inl ⟨"stream closed", rfl⟩))).1,
   (backgroundFailureTerminalFailed { sampleEnv with outcome := fun _ => .throws "stream closed" }
      [sampleRow] "a1" sampleRow rfl (Or.inr (Or.inl ⟨"stream closed", rfl⟩))).2.1⟩

/-- Invariant tying the two write-once timestamps to the status column:
decidedAt is null exactly in `pending`, executedAt only set in a terminal
execution status. -/
def RowInv (r : Row) : Prop :=
  (r.decidedAt = none ↔ r.status = "pending")
  ∧ (r.executedAt ≠ none → (r.status = "completed" ∨ r.status = "failed"))

/-- The accept-path composite update stamps decidedAt. -/
lemma acceptFinalUpdate_decidedAt (env : ExecEnv) (actionId : String) (row r : Row) :
    (acceptFinalUpdate env actionId row r).decidedAt = some env.decideTime := by
  unfold acceptFinalUpdate
  by_cases hc : env.runtimeActions.contains row.actionType = true
  · rw [if_pos hc]
    rcases ho : env.outcome actionId with m | cachedResults
    · simp only [ho]
      rfl
    · simp only [ho]
      rcases hca : getActionResultFromCache cachedResults with _ | ar
      · simp only [hca]
        rfl
      · simp only [hca]
        by_cases hs : ar.success = true
        · simp only [hs, if_true]
          rfl
        · simp only [hs, Bool.false_eq_true, if_false]
          rfl
  · rw [if_neg hc]
    rfl

/-- The accept-path composite update stamps executedAt. -/
lemma acceptFinalUpdate_executedAt (env : ExecEnv) (actionId : String) (row r : Row) :
    (acceptFinalUpdate env actionId row r).executedAt = some env.execTime := by
  unfold acceptFinalUpdate
  by_cases hc : env.runtimeActions.contains row.actionType = true
  · rw [if_pos hc]
    rcases ho : env.outcome actionId with m | cachedResults
    · simp only [ho]
      rfl
    · simp only [ho]
      rcases hca : getActionResultFromCache cachedResults with _ | ar
      · simp only [hca]
        rfl
      · simp only [hca]
        by_cases hs : ar.success = true
        · simp only [hs, if_true]
          rfl
        · simp only [hs, Bool.false_eq_true, if_false]
          rfl
  · rw [if_neg hc]
    rfl

/-- Counterexample to C4 as stated: a Recommendation rejected through
`processDecisions` (so its stored decidedAt is set) is returned by
`getAnalysisResult` with decidedAt null while its status is `rejected`,
violating `decidedAt is null iff status is pending` on that read path. -/
theorem getAnalysisResultDropsDecidedAt :
    (getAnalysisResult
        ⟨[{ id := "an1", agentId := "agent1", analysis := ⟨"w", "m", "r", "o"⟩,
            pluginsUsed := ["p"], executionTimeMs := 100, createdAt := 3 }],
          (processDecisions sampleEnv [sampleRow] [("a1", .reject)]).rows⟩ "an1").map
      (fun p => p.2.map (fun rec => (rec.status, rec.decidedAt)))
      = some [("rejected", (none : Option Nat))]
    ∧ ("rejected" : String) ≠ "pending" := by
  exact ⟨rfl, by decide⟩

/-- C4 as amended: the invariant `decidedAt null iff pending, executedAt null
unless completed/failed` is established on the rows `saveAnalysis` persists
for generated Recommendations, preserved by any single decision processed on
a Recommendation that is still pending in the store, and preserved by the
`rowToRec` read mapping used by `getActionsByAnalysisId` and `getActionById`;
`getAnalysisResult`, by contrast, returns decidedAt null for every
Recommendation regardless of its status (see the counterexample). -/
theorem statusTimestampInvariant :
    (∀ (db : Db) (analysis : AnalysisResult) (recs : List RecommendedAction),
      (∀ rec ∈ recs, GeneratedRec analysis.id rec) →
      (∀ r ∈ db.actions, RowInv r) →
      ∀ r ∈ (saveAnalysis db analysis recs).actions, RowInv r)
    ∧ (∀ (env : ExecEnv) (rows : List Row) (actionId : String) (d : Decision),
      (∀ r ∈ rows, RowInv r) →
      (∀ r ∈ rows, r.id = actionId → r.status = "pending") →
      ∀ r ∈ (processDecisions env rows [(actionId, d)]).rows, RowInv r)
    ∧ (∀ row : Row, (rowToRec row).decidedAt = row.decidedAt
        ∧ (rowToRec row).executedAt = row.executedAt
        ∧ (rowToRec row).status = row.status)
    ∧ (∀ row : Row, (rowToRecAnalysis row).decidedAt = none) := by
  refine ⟨?_, ?_, fun row => ⟨rfl, rfl, rfl⟩, fun row => rfl⟩
  · intro db analysis recs hgen hinv r hr
    simp only [saveAnalysis] at hr
    rcases List.mem_append.mp hr with h | h
    · exact hinv r h
    · obtain ⟨rec, hrec, hmap⟩ := List.mem_map.mp h
      have hg := hgen rec (List.mem_filter.mp hrec).1
      obtain ⟨-, -, hs, -⟩ := hg
      subst hmap
      refine ⟨⟨fun _ => hs, fun _ => rfl⟩, fun hne => absurd rfl hne⟩
  · intro env rows actionId d hinv hpend r' hr'
    cases d with
    | reject =>
      have heq : (processDecisions env rows [(actionId, .reject)]).rows =
          updateRows rows actionId (rejectUpdate env) := rfl
      rw [heq] at hr'
      obtain ⟨r, hr, hmap⟩ := List.mem_map.mp hr'
      by_cases h : (r.id == actionId) = true
      · simp only [if_pos h] at hmap
        subst hmap
        have hpr := hpend r hr (by simpa using h)
        have hi := hinv r hr
        refine ⟨⟨fun hd => absurd hd (by simp [rejectUpdate]),
          fun hst => absurd hst (by simp [rejectUpdate])⟩, fun hne => ?_⟩
        have hne' : r.executedAt ≠ none := hne
        rcases hi.2 hne' with h1 | h1 <;> rw [hpr] at h1 <;> exact absurd h1 (by decide)
      · simp only [if_neg h] at hmap
        subst hmap
        exact hinv r hr
    | accept =>
      rcases hfind : findRow rows actionId with _ | row
      · have heq : (processDecisions env rows [(actionId, .accept)]).rows =
            updateRows rows actionId (caughtUpdate env "Action not found") := by
          simp only [processDecisions, List.foldl_cons, List.foldl_nil, processOneDecision,
            hfind, processExecutingAction, executingTryBody]
        rw [heq] at hr'
        obtain ⟨r, hr, hmap⟩ := List.mem_map.mp hr'
        have hne : ¬((fun x => x.id == actionId) r = true) := List.find?_eq_none.mp hfind r hr
        simp only [if_neg hne] at hmap
        subst hmap
        exact hinv r hr
      · obtain ⟨hrows, -⟩ := processDecisions_accept env rows actionId row hfind
        rw [hrows] at hr'
        obtain ⟨r, hr, hmap⟩ := List.mem_map.mp hr'
        by_cases h : (r.id == actionId) = true
        · simp only [if_pos h] at hmap
          subst hmap
          have hterm := acceptFinalUpdate_terminal env actionId row r
          refine ⟨⟨fun hd => ?_, fun hst => ?_⟩, fun _ => hterm⟩
          · rw [acceptFinalUpdate_decidedAt env actionId row r] at hd
            exact absurd hd (by simp)
          · rcases hterm with h1 | h1 <;> rw [hst] at h1 <;> exact absurd h1 (by decide)
        · simp only [if_neg h] at hmap
          subst hmap
          exact hinv r hr

/-- Witness for the amended C4: the row produced by rejecting the sample
pending Recommendation satisfies the invariant. -/
theorem statusTimestampInvariantWitness :
    RowInv (rejectUpdate sampleEnv sampleRow) := by
  have h := statusTimestampInvariant.2.1 sampleEnv [sampleRow] "a1" Decision.reject
    (fun r hr => by
      rw [List.mem_singleton] at hr
      subst hr
      exact ⟨⟨fun _ => rfl, fun _ => rfl⟩, fun hne => absurd rfl hne⟩)
    (fun r hr _ => by
      rw [List.mem_singleton] at hr
      subst hr
      rfl)
  refine h (rejectUpdate sampleEnv sampleRow) ?_
  have heq : (processDecisions sampleEnv [sampleRow] [("a1", .reject)]).rows =
      [rejectUpdate sampleEnv sampleRow] := rfl
  rw [heq]
  exact List.mem_singleton.mpr rfl
